import Mathlib

/-!
Shallow embedding of the core of `dnstest.py`: the query classifier
(`query_domain`), the run coordinator's result-consumption loop and summary
(`run_test`), and a small-step model of the semaphore-bounded concurrency
(`limited_query` under `asyncio.Semaphore`).

Durations are rationals (seconds), mirroring Python's exact-fraction
arithmetic in the `statistics` module; machine floats only affect display
formatting, not which statistic is computed.
-/

namespace DnsTest

/-- Outcome of one `resolver.resolve(domain, QUERY_TYPE)` call, as discriminated
by the `except` clauses of `query_domain` (dnstest.py lines 156-172).  An
unrecognized exception carries its type name (`type(e).__name__`) and its
message text separately, since the code classifies by the former only. -/
inductive ResolveResult where
  | success
  | nxdomain
  | noanswer
  | timeout
  | othererr (typeName : String) (message : String)
  deriving DecidableEq, Repr

/-- Constant `TIMEOUT = 2.0` seconds (dnstest.py line 28). -/
def TIMEOUT : ℚ := 2

/-- Constant `CONCURRENT_REQUESTS = 50` (dnstest.py line 29). -/
def CONCURRENT_REQUESTS : ℕ := 50

/-- The `(domain, time_taken, error_key)` triple returned by `query_domain`. -/
abbrev QueryResult := String × ℚ × Option String

/-- Function `query_domain` (dnstest.py lines 151-172), as a function of the measured
wall-clock elapsed time of the attempt (`end_time - start_time`) and the
resolve outcome.  On `Timeout` the returned time is the constant `TIMEOUT`,
not the measured elapsed time; unrecognized errors are keyed by the exception
type name alone. -/
def query_domain (domain : String) (elapsed : ℚ) : ResolveResult → QueryResult
  | .success => (domain, elapsed, none)
  | .nxdomain => (domain, elapsed, some "NXDOMAIN")
  | .noanswer => (domain, elapsed, some "NoAnswer")
  | .timeout => (domain, TIMEOUT, some "Timeout")
  | .othererr typeName _ => (domain, elapsed, some typeName)

/-- The mutable accumulators of `run_test` (dnstest.py lines 191-195, 211):
success/failure counters, the error tally dict (modelled as an association
list in insertion order, matching Python dict iteration order), the
success-latency list, and the processed-task counter. -/
structure RunState where
  successful_lookups : ℕ
  failed_lookups : ℕ
  error_counts : List (String × ℕ)
  timings : List ℚ
  total_processed : ℕ
  deriving DecidableEq, Repr

/-- Initial accumulator state of `run_test` before any completion is consumed. -/
def initState : RunState :=
  { successful_lookups := 0, failed_lookups := 0, error_counts := [],
    timings := [], total_processed := 0 }

/-- Update `error_counts[error_key] = error_counts.get(error_key, 0) + 1`
(dnstest.py line 221) on an insertion-ordered association list: an existing
key is incremented in place, a new key is appended at the end. -/
def bump (key : String) : List (String × ℕ) → List (String × ℕ)
  | [] => [(key, 1)]
  | (k, c) :: rest =>
      if key = k then (k, c + 1) :: rest else (k, c) :: bump key rest

/-- One iteration of the `for i, future in enumerate(asyncio.as_completed(tasks))`
loop body (dnstest.py lines 214-224): bump `total_processed`, then either
record a failure in the tally or record a success latency. -/
def consume (st : RunState) (r : QueryResult) : RunState :=
  match r.2.2 with
  | some key =>
      { st with total_processed := st.total_processed + 1,
                failed_lookups := st.failed_lookups + 1,
                error_counts := bump key st.error_counts }
  | none =>
      { st with total_processed := st.total_processed + 1,
                successful_lookups := st.successful_lookups + 1,
                timings := st.timings ++ [r.2.1] }

/-- The accumulator state after consuming a list of completed results in order. -/
def runFold (results : List QueryResult) : RunState :=
  results.foldl consume initState

/-- Stable descending insertion by count: the new pair is placed before the
first existing pair whose count is no larger.  Folding this over a list
reproduces Python's stable `sorted(..., key=lambda item: item[1], reverse=True)`
(dnstest.py line 251). -/
def insertDesc (x : String × ℕ) : List (String × ℕ) → List (String × ℕ)
  | [] => [x]
  | y :: ys => if y.2 ≤ x.2 then x :: y :: ys else y :: insertDesc x ys

/-- Transcription of `sorted(error_counts.items(), key=lambda item: item[1], reverse=True)`
(dnstest.py line 251): a stable sort of the tally by descending count. -/
def sorted_errors (tally : List (String × ℕ)) : List (String × ℕ) :=
  tally.foldr insertDesc []

/-- Ascending insertion for rationals, used to transcribe the sort inside
Python's `statistics.median`. -/
def insertAsc (x : ℚ) : List ℚ → List ℚ
  | [] => [x]
  | y :: ys => if x ≤ y then x :: y :: ys else y :: insertAsc x ys

/-- Ascending sort of a rational list. -/
def sortAsc (l : List ℚ) : List ℚ :=
  l.foldr insertAsc []

/-- Python `statistics.mean` on exact rationals: sum divided by length. -/
def mean (l : List ℚ) : ℚ :=
  l.sum / l.length

/-- Python `statistics.median` on exact rationals: sort ascending; middle element for
odd length, average of the two middle elements for even length. -/
def median (l : List ℚ) : ℚ :=
  let s := sortAsc l
  let n := l.length
  if n % 2 = 1 then s.getD (n / 2) 0
  else (s.getD (n / 2 - 1) 0 + s.getD (n / 2) 0) / 2

/-- The square of `statistics.stdev` (the SAMPLE standard deviation): sum of
squared deviations from the mean divided by `n - 1`.  We track the variance
rather than the standard deviation to stay inside ℚ. -/
def stdevSq (l : List ℚ) : ℚ :=
  (l.map (fun x => (x - mean l) ^ 2)).sum / ((l.length : ℚ) - 1)

/-- Modelled from the spec: the square of the POPULATION standard deviation
("population stddev when ≥2 samples"), i.e. sum of squared deviations divided
by `n`.  This is the statistic the spec claims; it is compared against the
source's `statistics.stdev`. -/
def popVarianceSpec (l : List ℚ) : ℚ :=
  (l.map (fun x => (x - mean l) ^ 2)).sum / (l.length : ℚ)

/-- The performance-metrics block of the final summary (dnstest.py lines
257-268), printed only when `timings` is non-empty: mean, median, min, max,
stddev (only when more than one timing), and overall QPS (only when the total
duration is positive). -/
structure PerfStats where
  meanTime : ℚ
  medianTime : ℚ
  minTime : ℚ
  maxTime : ℚ
  stdevSqTime : Option ℚ
  qps : Option ℚ
  deriving DecidableEq, Repr

/-- The final printed summary of `run_test` (dnstest.py lines 239-270) as a
data structure: counts, the sorted error breakdown (printed only when there
were failures), and the optional performance block (present only when there
was at least one successful lookup). -/
structure Summary where
  total_domains : ℕ
  total_duration : ℚ
  successful_lookups : ℕ
  failed_lookups : ℕ
  error_breakdown : List (String × ℕ)
  perf : Option PerfStats
  deriving DecidableEq, Repr

/-- The summary-construction part of `run_test` (dnstest.py lines 239-270),
from the domain count, the measured total duration and the final accumulator
state. -/
def mk_summary (total_domains : ℕ) (total_duration : ℚ) (st : RunState) : Summary :=
  { total_domains := total_domains
    total_duration := total_duration
    successful_lookups := st.successful_lookups
    failed_lookups := st.failed_lookups
    error_breakdown := sorted_errors st.error_counts
    perf :=
      match st.timings with
      | [] => none
      | t :: ts =>
          some { meanTime := mean (t :: ts)
                 medianTime := median (t :: ts)
                 minTime := ts.foldl min t
                 maxTime := ts.foldl max t
                 stdevSqTime :=
                   if 1 < (t :: ts).length then some (stdevSq (t :: ts)) else none
                 qps :=
                   if 0 < total_duration then
                     some ((total_domains : ℚ) / total_duration)
                   else none } }

/-- End-to-end summary of a run whose completion-ordered results are given:
fold the consumption loop, then build the summary. -/
def runSummary (total_domains : ℕ) (total_duration : ℚ)
    (results : List QueryResult) : Summary :=
  mk_summary total_domains total_duration (runFold results)

/-- The Overall Average QPS figure the summary reports, if any: it lives
inside the performance block (dnstest.py lines 256-268). -/
def reportedQps (s : Summary) : Option ℚ :=
  s.perf.bind fun p => p.qps

/-- The squared standard-deviation figure the summary reports, if any. -/
def reportedStdevSq (s : Summary) : Option ℚ :=
  s.perf.bind fun p => p.stdevSqTime

/-! ### Small-step model of the semaphore-bounded concurrency

`run_test` creates `asyncio.Semaphore(CONCURRENT_REQUESTS)` and wraps each
query in `limited_query`, which runs `query_domain` inside `async with sem`
(dnstest.py lines 198-207).  Each of the `D` tasks is modelled by a status:
not yet past the acquire point (`waiting`), admitted past the acquire point
with the query in flight (`running`), or finished with its slot released
(`done`).  The scheduler may interleave steps arbitrarily. -/

/-- Status of one `limited_query` task. -/
inductive TaskStatus where
  | waiting
  | running
  | done
  deriving DecidableEq, Repr

/-- Global state of the semaphore model: per-task statuses and the semaphore's
free-slot count. -/
structure SemState where
  tasks : List TaskStatus
  sem : ℕ
  deriving DecidableEq, Repr

/-- Number of queries currently in flight (tasks admitted past the acquire
point and not yet completed). -/
def inflight (s : SemState) : ℕ :=
  s.tasks.count .running

/-- Initial state for `D` domains and ceiling `N`: every task waiting, all
`N` semaphore slots free. -/
def initSem (D N : ℕ) : SemState :=
  { tasks := List.replicate D .waiting, sem := N }

/-- One scheduler step: a waiting task acquires the semaphore (only possible
when a slot is free), or a running task settles — success or failure alike —
and releases its slot exactly once (`async with sem` releases on exit). -/
inductive SemStep : SemState → SemState → Prop
  | acquire (s : SemState) (i : ℕ) (h : s.tasks[i]? = some .waiting)
      (hs : 0 < s.sem) :
      SemStep s { tasks := s.tasks.set i .running, sem := s.sem - 1 }
  | release (s : SemState) (i : ℕ) (h : s.tasks[i]? = some .running) :
      SemStep s { tasks := s.tasks.set i .done, sem := s.sem + 1 }

/-- States reachable during a run with `D` domains and ceiling `N`. -/
def Reachable (D N : ℕ) (s : SemState) : Prop :=
  Relation.ReflTransGen SemStep (initSem D N) s

/-- Setting position `i` (which holds `a`) to `b` shifts the count of any
value by the indicator difference between `b` and `a`. -/
lemma count_set_of_getElem {α : Type} [DecidableEq α] (l : List α) (i : ℕ)
    (a b c : α) (h : l[i]? = some a) :
    (l.set i b).count c + (if a = c then 1 else 0)
      = l.count c + (if b = c then 1 else 0) := by
  induction l generalizing i with
  | nil => simp at h
  | cons x xs ih =>
    cases i with
    | zero =>
      simp only [List.getElem?_cons_zero, Option.some.injEq] at h
      subst h
      simp only [List.set_cons_zero, List.count_cons, beq_iff_eq]
      split_ifs <;> omega
    | succ n =>
      simp only [List.getElem?_cons_succ] at h
      have hx := ih n h
      simp only [List.set_cons_succ, List.count_cons, beq_iff_eq]
      split_ifs at hx ⊢ <;> omega

/-- Inductive invariant of the semaphore model: the task list keeps its
length, and in-flight queries plus free slots always total the ceiling. -/
lemma sem_invariant {D N : ℕ} {s : SemState} (h : Reachable D N s) :
    s.tasks.length = D ∧ inflight s + s.sem = N := by
  induction h with
  | refl =>
    constructor
    · simp [initSem]
    · simp [initSem, inflight, List.count_replicate]
  | @tail b c _ step ih =>
    obtain ⟨hlen, hsum⟩ := ih
    cases step with
    | acquire i hi hs =>
      refine ⟨by simpa using hlen, ?_⟩
      have hc := count_set_of_getElem b.tasks i .waiting .running .running hi
      simp only [inflight] at hsum ⊢
      simp at hc
      omega
    | release i hi =>
      refine ⟨by simpa using hlen, ?_⟩
      have hc := count_set_of_getElem b.tasks i .running .done .running hi
      simp only [inflight] at hsum ⊢
      simp at hc
      omega

/-! ### Helper lemmas about the consumption fold and the stable sort -/

/-- Each consumed result advances `total_processed` by exactly one. -/
lemma foldl_consume_total (pre : List QueryResult) (s : RunState) :
    (pre.foldl consume s).total_processed = s.total_processed + pre.length := by
  induction pre generalizing s with
  | nil => simp
  | cons r rs ih =>
    rw [List.foldl_cons, ih]
    unfold consume
    cases r.2.2 <;> simp <;> omega

/-- Each consumed result increments exactly one of the two outcome counters. -/
lemma foldl_consume_succ_fail (pre : List QueryResult) (s : RunState) :
    (pre.foldl consume s).successful_lookups + (pre.foldl consume s).failed_lookups
      = s.successful_lookups + s.failed_lookups + pre.length := by
  induction pre generalizing s with
  | nil => simp
  | cons r rs ih =>
    rw [List.foldl_cons, ih]
    unfold consume
    cases r.2.2 <;> simp <;> omega

/-- If every consumed result carries an error key, no latency is ever appended. -/
lemma foldl_consume_timings_of_fail (pre : List QueryResult) (s : RunState)
    (h : ∀ r ∈ pre, r.2.2 ≠ none) :
    (pre.foldl consume s).timings = s.timings := by
  induction pre generalizing s with
  | nil => simp
  | cons r rs ih =>
    rw [List.foldl_cons]
    rw [ih _ fun x hx => h x (List.mem_cons_of_mem r hx)]
    have hr := h r (List.mem_cons_self r rs)
    unfold consume
    cases hk : r.2.2 with
    | none => exact absurd hk hr
    | some k => simp

/-- Inserting an element keeps the multiset of pairs. -/
lemma insertDesc_perm (x : String × ℕ) (l : List (String × ℕ)) :
    (insertDesc x l).Perm (x :: l) := by
  induction l with
  | nil => exact List.Perm.refl _
  | cons y ys ih =>
    unfold insertDesc
    split
    · exact List.Perm.refl _
    · exact (ih.cons y).trans (List.Perm.swap x y ys)

/-- The stable sort permutes the tally. -/
lemma sorted_errors_perm (l : List (String × ℕ)) :
    (sorted_errors l).Perm l := by
  induction l with
  | nil => exact List.Perm.refl _
  | cons x xs ih =>
    exact (insertDesc_perm x (sorted_errors xs)).trans (ih.cons x)

/-- Insertion preserves descending order by count. -/
lemma insertDesc_sorted (x : String × ℕ) (l : List (String × ℕ))
    (h : l.Sorted (fun a b => b.2 ≤ a.2)) :
    (insertDesc x l).Sorted (fun a b => b.2 ≤ a.2) := by
  induction l with
  | nil => simp [insertDesc]
  | cons y ys ih =>
    rw [List.sorted_cons] at h
    obtain ⟨hy, hys⟩ := h
    unfold insertDesc
    split
    · rename_i hle
      rw [List.sorted_cons]
      refine ⟨?_, ?_⟩
      · intro b hb
        rcases List.mem_cons.mp hb with hb | hb
        · subst hb; omega
        · have h2 : b.2 ≤ y.2 := hy b hb
          omega
      · rw [List.sorted_cons]; exact ⟨hy, hys⟩
    · rename_i hgt
      rw [List.sorted_cons]
      refine ⟨?_, ih hys⟩
      intro b hb
      have hb2 := (insertDesc_perm x ys).mem_iff.mp hb
      rcases List.mem_cons.mp hb2 with hb2 | hb2
      · have hbx : b.2 = x.2 := by rw [hb2]
        show b.2 ≤ y.2
        omega
      · exact hy b hb2

/-- The sorted breakdown is in descending order of count. -/
lemma sorted_errors_sorted (l : List (String × ℕ)) :
    (sorted_errors l).Sorted (fun a b => b.2 ≤ a.2) := by
  induction l with
  | nil => simp [sorted_errors]
  | cons x xs ih => exact insertDesc_sorted x (sorted_errors xs) ih

/-- Stability of the insertion: among pairs of one fixed count, the inserted
pair lands in front and the rest keep their order. -/
lemma insertDesc_filter (x : String × ℕ) (l : List (String × ℕ)) (c : ℕ) :
    (insertDesc x l).filter (fun y => y.2 == c)
      = if x.2 = c then x :: l.filter (fun y => y.2 == c)
        else l.filter (fun y => y.2 == c) := by
  induction l with
  | nil =>
    by_cases hx : x.2 = c <;> simp [insertDesc, List.filter_cons, hx]
  | cons y ys ih =>
    unfold insertDesc
    split
    · rename_i hle
      by_cases hx : x.2 = c <;> simp [List.filter_cons, hx]
    · rename_i hgt
      by_cases hx : x.2 = c <;> by_cases hy : y.2 = c <;>
        simp [List.filter_cons, hx, hy, ih] <;> try omega

/-- Stability of the whole sort: the pairs holding any fixed count appear in
the same order as in the tally. -/
lemma sorted_errors_filter (l : List (String × ℕ)) (c : ℕ) :
    (sorted_errors l).filter (fun y => y.2 == c)
      = l.filter (fun y => y.2 == c) := by
  induction l with
  | nil => rfl
  | cons x xs ih =>
    show (insertDesc x (sorted_errors xs)).filter (fun y => y.2 == c) = _
    rw [insertDesc_filter, ih]
    by_cases hx : x.2 = c <;> simp [List.filter_cons, hx]

/-- Bumping a key preserves the key order of the tally, appending a fresh key
at the end (Python dict insertion-order semantics). -/
lemma bump_keys (k : String) (l : List (String × ℕ)) :
    (bump k l).map Prod.fst
      = if k ∈ l.map Prod.fst then l.map Prod.fst
        else l.map Prod.fst ++ [k] := by
  induction l with
  | nil => simp [bump]
  | cons y ys ih =>
    unfold bump
    by_cases hk : k = y.1
    · simp [hk]
    · simp only [hk, if_false]
      simp only [List.map_cons, List.mem_cons, ih]
      by_cases hm : k ∈ ys.map Prod.fst <;> simp [hm, hk]

/-! ### Claim theorems -/

/-- C1: for every domain count `D ≥ 0` and concurrency ceiling `N ≥ 1`, no
state reachable in the semaphore model of `run_test` / `limited_query` has
more than `min N D` queries in flight: the semaphore never admits more than
`N` tasks past the acquire point at once, and there are only `D` tasks. -/
theorem concurrency_ceiling (D N : ℕ) (hN : 1 ≤ N) (s : SemState)
    (h : Reachable D N s) : inflight s ≤ min N D := by
  obtain ⟨hlen, hsum⟩ := sem_invariant h
  have h1 : inflight s ≤ N := by omega
  have h2 : inflight s ≤ D := by
    have hc : inflight s ≤ s.tasks.length := List.count_le_length _ _
    omega
  exact le_min h1 h2

/-- C1 witness: with `D = 3` domains and ceiling `N = 2`, the state reached
after two acquisitions has `2 ≤ min 2 3` queries in flight. -/
theorem concurrency_ceiling_witness :
    1 ≤ 2 ∧ inflight { tasks := [.running, .running, .waiting], sem := 0 } ≤ min 2 3 := by
  refine ⟨by norm_num, concurrency_ceiling 3 2 (by norm_num) _ ?_⟩
  have s1 : SemStep (initSem 3 2) { tasks := [.running, .waiting, .waiting], sem := 1 } :=
    SemStep.acquire (initSem 3 2) 0 (by decide) (by decide)
  have s2 : SemStep { tasks := [.running, .waiting, .waiting], sem := 1 }
      { tasks := [.running, .running, .waiting], sem := 0 } :=
    SemStep.acquire { tasks := [.running, .waiting, .waiting], sem := 1 } 1
      (by decide) (by decide)
  exact Relation.ReflTransGen.tail (Relation.ReflTransGen.single s1) s2

/-- C2: after every completion event (i.e. after consuming any prefix of the
completion-ordered results) `successful_lookups + failed_lookups =
total_processed` holds, `total_processed` counts exactly the consumed events,
and it equals the full input count exactly once — at run end. -/
theorem counters_invariant (results pre : List QueryResult)
    (h : pre <+: results) :
    (runFold pre).successful_lookups + (runFold pre).failed_lookups
        = (runFold pre).total_processed ∧
    (runFold pre).total_processed = pre.length ∧
    ((runFold pre).total_processed = results.length ↔ pre = results) := by
  obtain ⟨t, rfl⟩ := h
  have h1 : (pre.foldl consume initState).total_processed = pre.length := by
    simpa [initState] using foldl_consume_total pre initState
  have h2 : (pre.foldl consume initState).successful_lookups
      + (pre.foldl consume initState).failed_lookups = pre.length := by
    simpa [initState] using foldl_consume_succ_fail pre initState
  refine ⟨?_, ?_, ?_⟩
  · show (pre.foldl consume initState).successful_lookups
        + (pre.foldl consume initState).failed_lookups
        = (pre.foldl consume initState).total_processed
    omega
  · show (pre.foldl consume initState).total_processed = pre.length
    omega
  · constructor
    · intro hl
      have hl2 : (pre.foldl consume initState).total_processed = (pre ++ t).length := hl
      rw [List.length_append] at hl2
      have ht : t = [] := by
        have : t.length = 0 := by omega
        exact List.length_eq_zero.mp this
      simp [ht]
    · intro he
      show (pre.foldl consume initState).total_processed = (pre ++ t).length
      conv_rhs => rw [← he]
      omega

/-- C2 witness: a two-result run, observed after its first completion and at
its end. -/
theorem counters_invariant_witness :
    ((runFold [(("a" : String), (1 : ℚ), (none : Option String))]).successful_lookups
        + (runFold [("a", 1, none)]).failed_lookups
        = (runFold [("a", 1, none)]).total_processed ∧
      (runFold [("a", 1, none)]).total_processed = 1 ∧
      ((runFold [("a", 1, none)]).total_processed
          = [(("a" : String), (1 : ℚ), (none : Option String)),
             ("b", 2, some "Timeout")].length
        ↔ [(("a" : String), (1 : ℚ), (none : Option String))]
            = [("a", 1, none), ("b", 2, some "Timeout")])) :=
  counters_invariant [("a", 1, none), ("b", 2, some "Timeout")]
    [("a", 1, none)] ⟨[("b", 2, some "Timeout")], rfl⟩

/-- C3: `run_test` creates exactly one `limited_query` task per input domain
and `as_completed` yields each task exactly once, in an arbitrary order: the
consumed results are a permutation of one `query_domain` record per domain
index.  Hence each domain occurrence contributes exactly one outcome record —
no duplicates, no omissions. -/
theorem one_record_per_domain (domains : List String)
    (elapsed : ℕ → ℚ) (outcome : ℕ → ResolveResult) (results : List QueryResult)
    (h : results.Perm ((List.finRange domains.length).map
        (fun i => query_domain (domains.get i) (elapsed i) (outcome i)))) :
    results.length = domains.length ∧
    ∀ d : String, (results.map Prod.fst).count d = domains.count d := by
  have hfst : ∀ (d : String) (e : ℚ) (r : ResolveResult), (query_domain d e r).1 = d := by
    intro d e r
    cases r <;> rfl
  constructor
  · rw [h.length_eq]
    simp
  · intro d
    rw [(h.map Prod.fst).count_eq d, List.map_map]
    have heq : (Prod.fst ∘ fun i : Fin domains.length =>
        query_domain (domains.get i) (elapsed i) (outcome i))
        = fun i : Fin domains.length => domains.get i := by
      funext i
      exact hfst _ _ _
    rw [heq, List.finRange_map_get]

/-- C3 witness: two domains, results consumed in reversed completion order;
each domain appears in exactly one record. -/
theorem one_record_per_domain_witness :
    ([("b", 1, none), (("a" : String), (1 : ℚ), (none : Option String))].length
        = (["a", "b"] : List String).length) ∧
    ∀ d : String,
      ([("b", 1, none), (("a" : String), (1 : ℚ), (none : Option String))].map
          Prod.fst).count d = (["a", "b"] : List String).count d :=
  one_record_per_domain ["a", "b"] (fun _ => 1) (fun _ => .success)
    [("b", 1, none), ("a", 1, none)]
    ((List.Perm.swap ("b", 1, none) ("a", 1, none) []).symm)

/-- C4 counterexample: the claim says the reported standard deviation is the
POPULATION standard deviation, about 8.16 ms for latencies of 10 ms, 20 ms,
30 ms.  Running the code's summary on exactly that scenario reports a squared
deviation of 1/10000 s² (a standard deviation of exactly 10 ms, the SAMPLE
statistic of Python's `statistics.stdev`), while the population variance of
those latencies is 1/15000 s² (≈ (8.16 ms)²); the two differ. -/
theorem stdev_is_not_population_cx :
    reportedStdevSq (runSummary 3 1
        [("a", 1/100, none), ("b", 1/50, none), ("c", 3/100, none)])
      = some (1/10000) ∧
    popVarianceSpec [1/100, 1/50, 3/100] = 1/15000 ∧
    ((1 : ℚ)/10000 ≠ 1/15000) := by
  refine ⟨?_, ?_, by norm_num⟩
  · norm_num [reportedStdevSq, runSummary, runFold, mk_summary, initState, consume,
      stdevSq, mean, List.foldl]
  · norm_num [popVarianceSpec, mean]

/-- C4 (amended): the reported latency standard deviation, computed only when
there are at least 2 successful latencies, is the SAMPLE standard deviation
(`statistics.stdev`, divisor n−1): for latencies [10ms, 20ms, 30ms] the
summary reports mean = median = 20 ms (1/50 s), min = 10 ms, max = 30 ms, and
a squared standard deviation of 1/10000 s², i.e. exactly 10 ms — not the
population value ≈ 8.16 ms. -/
theorem scenario_stats_sample_stdev :
    runSummary 3 1 [("a", 1/100, none), ("b", 1/50, none), ("c", 3/100, none)]
      = { total_domains := 3, total_duration := 1, successful_lookups := 3,
          failed_lookups := 0, error_breakdown := [],
          perf := some { meanTime := 1/50, medianTime := 1/50, minTime := 1/100,
                         maxTime := 3/100, stdevSqTime := some (1/10000),
                         qps := some 3 } } := by
  norm_num [runSummary, runFold, mk_summary, initState, consume, sorted_errors,
    mean, median, stdevSq, sortAsc, insertAsc, List.foldl]

/-- C5: whenever the summary carries a performance block, its throughput
figure is `total domains / total duration` when the duration is positive, and
is absent (undefined — no division is attempted) when the duration is zero. -/
theorem throughput_guarded (D : ℕ) (dur : ℚ) (st : RunState) (p : PerfStats)
    (hp : (mk_summary D dur st).perf = some p) :
    (dur = 0 → p.qps = none) ∧ (0 < dur → p.qps = some ((D : ℚ) / dur)) := by
  rw [mk_summary] at hp
  cases ht : st.timings with
  | nil =>
    rw [ht] at hp
    simp at hp
  | cons t ts =>
    rw [ht] at hp
    simp only [Option.some.injEq] at hp
    subst hp
    constructor
    · intro h0
      simp [h0]
    · intro hpos
      simp [hpos]

/-- C5 witness: one success in zero total duration reports no throughput. -/
theorem throughput_guarded_witness :
    (((0 : ℚ) = 0 → (PerfStats.qps ⟨1, 1, 1, 1, none, none⟩) = none) ∧
      ((0 : ℚ) < 0 →
        (PerfStats.qps ⟨1, 1, 1, 1, none, none⟩) = some ((2 : ℚ) / 0))) :=
  throughput_guarded 2 0 ⟨1, 0, [], [1], 1⟩ ⟨1, 1, 1, 1, none, none⟩
    (by norm_num [mk_summary, mean, median, sortAsc, insertAsc, stdevSq])

/-- C6: `query_domain` reports the elapsed time of a `Timeout` outcome as the
configured `TIMEOUT` constant, and the measured elapsed time for every other
outcome (success, NXDOMAIN, NoAnswer, other errors). -/
theorem timeout_reports_constant (d : String) (elapsed : ℚ) (r : ResolveResult) :
    (query_domain d elapsed r).2.1 = if r = .timeout then TIMEOUT else elapsed := by
  cases r <;> simp [query_domain]

/-- C7: the printed error breakdown is a permutation of the final tally,
sorted in descending order of count; entries with equal counts keep the
tally's order, which is the order in which each kind was first observed
(`bump` appends a fresh kind at the end and increments a seen kind in place,
matching Python dict insertion order). -/
theorem error_breakdown_sorted_stable (tally : List (String × ℕ)) :
    (sorted_errors tally).Perm tally ∧
    (sorted_errors tally).Sorted (fun a b => b.2 ≤ a.2) ∧
    (∀ c : ℕ, (sorted_errors tally).filter (fun y => y.2 == c)
        = tally.filter (fun y => y.2 == c)) ∧
    (∀ (k : String) (l : List (String × ℕ)),
      (bump k l).map Prod.fst
        = if k ∈ l.map Prod.fst then l.map Prod.fst
          else l.map Prod.fst ++ [k]) :=
  ⟨sorted_errors_perm tally, sorted_errors_sorted tally,
   fun c => sorted_errors_filter tally c, fun k l => bump_keys k l⟩

/-- C8: with no successful latencies the summary carries no performance block
at all (no mean/median/min/max/stddev is ever evaluated on an empty sequence,
and no division occurs); and whenever a performance block exists, it carries
a standard deviation exactly when there are at least 2 samples. -/
theorem empty_latencies_no_stats (D : ℕ) (dur : ℚ) (st : RunState) :
    (st.timings = [] → (mk_summary D dur st).perf = none) ∧
    (∀ p : PerfStats, (mk_summary D dur st).perf = some p →
      (p.stdevSqTime.isSome ↔ 2 ≤ st.timings.length)) := by
  constructor
  · intro h0
    rw [mk_summary, h0]
  · intro p hp
    rw [mk_summary] at hp
    cases ht : st.timings with
    | nil =>
      rw [ht] at hp
      simp at hp
    | cons t ts =>
      rw [ht] at hp
      simp only [Option.some.injEq] at hp
      subst hp
      simp only [ht, List.length_cons]
      constructor
      · intro hs
        by_contra hlt
        have h1 : ¬ 1 < ts.length + 1 := by omega
        simp [h1] at hs
      · intro h2
        have h1 : 1 < ts.length + 1 := by omega
        simp [h1]

/-- C8 witness: the empty-latency branch at a concrete state, and the ≥2
gate at a concrete two-sample state. -/
theorem empty_latencies_no_stats_witness :
    (mk_summary 1 1 initState).perf = none ∧
    ((PerfStats.stdevSqTime ⟨3/2, 3/2, 1, 2, some (1/2), some 1⟩).isSome
      ↔ 2 ≤ (RunState.timings ⟨2, 0, [], [1, 2], 2⟩).length) :=
  ⟨(empty_latencies_no_stats 1 1 initState).1 rfl,
   (empty_latencies_no_stats 1 1 ⟨2, 0, [], [1, 2], 2⟩).2
      ⟨3/2, 3/2, 1, 2, some (1/2), some 1⟩
      (by norm_num [mk_summary, mean, median, sortAsc, insertAsc, stdevSq])⟩

/-- C9: two unrecognized resolution errors of the same underlying exception
type are classified to the same error key — `type(e).__name__` — regardless
of their message texts, the measured elapsed times, or the domains queried,
so they always land in the same tally bucket. -/
theorem other_error_classified_by_type (d1 d2 : String) (e1 e2 : ℚ)
    (ty m1 m2 : String) :
    (query_domain d1 e1 (.othererr ty m1)).2.2
      = (query_domain d2 e2 (.othererr ty m2)).2.2 := rfl

/-- C10: a run with zero successful lookups reports no Overall Average QPS
figure at all — even when every query completed as a failure and the total
duration is positive — because the throughput computation is nested inside
the branch requiring a non-empty success-latency list. -/
theorem qps_omitted_without_success (dur : ℚ) (results : List QueryResult)
    (hdur : 0 < dur) (hfail : ∀ r ∈ results, r.2.2 ≠ none) :
    reportedQps (runSummary results.length dur results) = none := by
  have ht : (runFold results).timings = [] := by
    have := foldl_consume_timings_of_fail results initState hfail
    simpa [initState] using this
  rw [runSummary, mk_summary]
  simp [reportedQps, ht]

/-- C10 witness: one timed-out query in a 1-second run yields no QPS figure. -/
theorem qps_omitted_without_success_witness :
    reportedQps (runSummary 1 1 [("a", 2, some "Timeout")]) = none :=
  qps_omitted_without_success 1 [("a", 2, some "Timeout")] (by norm_num)
    (by simp)

end DnsTest
